import Mathlib

/-!
Verification of the PCAP / SMPP-M decoding pipeline.

The development shallowly embeds the parser sources: byte buffers
(JavaScript `ArrayBuffer` / `Uint8Array` / `DataView`) become `List Nat`
whose elements are the byte values, `DataView` accessors that can throw a
`RangeError` become `Except String` values, and each loop of the source
becomes a structurally recursive function on an explicit fuel argument
that dominates the loop's iteration count (every loop of the source
strictly advances a cursor into a fixed buffer, so `buffer length + 1`
fuel is always enough; fuel exhaustion returns the accumulator, the same
value the loop would return at its exit test).
-/

namespace SmppM

/-- Decidable equality for `Except`, used to evaluate the fallible parsing
functions at concrete inputs. -/
instance {ε α : Type} [DecidableEq ε] [DecidableEq α] : DecidableEq (Except ε α) := fun a b =>
  match a, b with
  | .error e, .error f =>
    if h : e = f then isTrue (by rw [h]) else isFalse (by intro hh; cases hh; exact h rfl)
  | .error _, .ok _ => isFalse (by intro h; cases h)
  | .ok _, .error _ => isFalse (by intro h; cases h)
  | .ok a, .ok b =>
    if h : a = b then isTrue (by rw [h]) else isFalse (by intro hh; cases hh; exact h rfl)

/-! ## Byte-level buffer access (model of `DataView` / `Uint8Array`) -/

/-- Unchecked byte read, used only where the source guards the index. -/
def getU8 (l : List Nat) (i : Nat) : Nat := l.getD i 0

/-- Checked byte read: `DataView.getUint8` throws a `RangeError` when the
index is out of bounds. -/
def getU8E (l : List Nat) (i : Nat) : Except String Nat :=
  if i + 1 ≤ l.length then .ok (getU8 l i)
  else .error "RangeError: Offset is outside the bounds of the DataView"

/-- Unchecked big-endian 16-bit read. -/
def getU16 (l : List Nat) (i : Nat) : Nat :=
  getU8 l i * 256 + getU8 l (i + 1)

/-- Checked big-endian 16-bit read (`DataView.getUint16(i, false)`). -/
def getU16E (l : List Nat) (i : Nat) : Except String Nat :=
  if i + 2 ≤ l.length then .ok (getU16 l i)
  else .error "RangeError: Offset is outside the bounds of the DataView"

/-- Unchecked big-endian 32-bit read. -/
def getU32BE (l : List Nat) (i : Nat) : Nat :=
  getU8 l i * 16777216 + getU8 l (i + 1) * 65536 + getU8 l (i + 2) * 256 + getU8 l (i + 3)

/-- Unchecked little-endian 32-bit read. -/
def getU32LE (l : List Nat) (i : Nat) : Nat :=
  getU8 l (i + 3) * 16777216 + getU8 l (i + 2) * 65536 + getU8 l (i + 1) * 256 + getU8 l i

/-- `DataView.getUint32(i, littleEndian)` at an index the source has
already guarded. -/
def getU32 (l : List Nat) (i : Nat) (littleEndian : Bool) : Nat :=
  if littleEndian then getU32LE l i else getU32BE l i

/-! ## Hexadecimal and string helpers of the source -/

/-- JavaScript `n.toString(16)`: lowercase hexadecimal digits, `"0"` for 0. -/
def jsHexString (n : Nat) : String := String.mk (Nat.toDigits 16 n)

/-- JavaScript `s.padStart(k, "0")`. -/
def padStartZero (k : Nat) (s : String) : String :=
  String.mk (List.replicate (k - s.length) '0' ++ s.data)

/-- One byte as a two-digit lowercase hex string
(`b.toString(16).padStart(2, "0")`). -/
def toHexByte (b : Nat) : String := padStartZero 2 (jsHexString b)

/-- JavaScript `Array.prototype.join(" ")` at the character-list level. -/
def joinSpace : List (List Char) → List Char
  | [] => []
  | [w] => w
  | w :: ws => w ++ ' ' :: joinSpace ws

/-- `bufferToHex` of the source: each byte as two lowercase hex digits,
joined with single spaces. -/
def bufferToHex (bs : List Nat) : String :=
  String.mk (joinSpace (bs.map fun b => (toHexByte b).data))

/-- JavaScript `s.split(" ")`: note that splitting the empty string yields
`[""]`, not `[]`. -/
def splitSpace : List Char → List (List Char)
  | [] => [[]]
  | c :: rest =>
    if c = ' ' then [] :: splitSpace rest
    else
      match splitSpace rest with
      | [] => [[c]]
      | w :: ws => (c :: w) :: ws

/-- Value of one hexadecimal digit character. -/
def hexDigitVal (c : Char) : Option Nat :=
  if '0' ≤ c ∧ c ≤ '9' then some (c.toNat - '0'.toNat)
  else if 'a' ≤ c ∧ c ≤ 'f' then some (c.toNat - 'a'.toNat + 10)
  else if 'A' ≤ c ∧ c ≤ 'F' then some (c.toNat - 'A'.toNat + 10)
  else none

/-- JavaScript `parseInt(s, 16)` followed by storage into a `Uint8Array`
element: leading hex digits are parsed; no digits at all gives `NaN`,
which the typed array stores as 0; the stored value is reduced mod 256. -/
def jsParseHexByte (cs : List Char) : Nat :=
  let ds := cs.takeWhile fun c => (hexDigitVal c).isSome
  match ds with
  | [] => 0
  | _ => (ds.foldl (fun a c => a * 16 + (hexDigitVal c).getD 0) 0) % 256

/-- `new Uint8Array(s.split(" ").map(x => parseInt(x, 16)))` of the source
(the tag-0x0424 branch of `parseDeliverSmBody`). -/
def hexStringToBytes (s : String) : List Nat :=
  (splitSpace s.data).map jsParseHexByte

/-- Model of `TextDecoder("ascii")` restricted to the byte values the
sources feed it (C-octet string fields): each byte becomes the character
with that code point. -/
def asciiDecode (bs : List Nat) : String := String.mk (bs.map Char.ofNat)

/-- Model of `TextDecoder("iso-8859-1")`: one byte per character. -/
def latin1Decode (bs : List Nat) : String := String.mk (bs.map Char.ofNat)

/-- Model of `TextDecoder("utf-8")` (non-fatal): fuelled decoder; the
replacement character 0xFFFD stands in for malformed sequences. -/
def utf8DecodeF : Nat → List Nat → List Char
  | 0, _ => []
  | _, [] => []
  | fuel + 1, b :: rest =>
    if b < 128 then Char.ofNat b :: utf8DecodeF fuel rest
    else if 194 ≤ b ∧ b ≤ 223 then
      match rest with
      | b2 :: rest2 =>
        if 128 ≤ b2 ∧ b2 ≤ 191 then
          Char.ofNat ((b - 192) * 64 + (b2 - 128)) :: utf8DecodeF fuel rest2
        else Char.ofNat 65533 :: utf8DecodeF fuel rest
      | [] => [Char.ofNat 65533]
    else if 224 ≤ b ∧ b ≤ 239 then
      match rest with
      | b2 :: b3 :: rest3 =>
        if 128 ≤ b2 ∧ b2 ≤ 191 ∧ 128 ≤ b3 ∧ b3 ≤ 191 then
          Char.ofNat ((b - 224) * 4096 + (b2 - 128) * 64 + (b3 - 128)) :: utf8DecodeF fuel rest3
        else Char.ofNat 65533 :: utf8DecodeF fuel rest
      | _ => [Char.ofNat 65533]
    else if 240 ≤ b ∧ b ≤ 244 then
      match rest with
      | b2 :: b3 :: b4 :: rest4 =>
        if 128 ≤ b2 ∧ b2 ≤ 191 ∧ 128 ≤ b3 ∧ b3 ≤ 191 ∧ 128 ≤ b4 ∧ b4 ≤ 191 then
          Char.ofNat ((b - 240) * 262144 + (b2 - 128) * 4096 + (b3 - 128) * 64 + (b4 - 128))
            :: utf8DecodeF fuel rest4
        else Char.ofNat 65533 :: utf8DecodeF fuel rest
      | _ => [Char.ofNat 65533]
    else Char.ofNat 65533 :: utf8DecodeF fuel rest

/-- UTF-8 text decoding of a whole byte list. -/
def utf8Decode (bs : List Nat) : String := String.mk (utf8DecodeF bs.length bs)

/-- Model of `TextDecoder("utf-16be")`: big-endian two-byte code units,
surrogate pairs combined, malformed tails replaced. -/
def utf16beDecodeF : Nat → List Nat → List Char
  | 0, _ => []
  | _, [] => []
  | _ + 1, [_] => [Char.ofNat 65533]
  | fuel + 1, hi :: lo :: rest =>
    let u := hi * 256 + lo
    if 55296 ≤ u ∧ u ≤ 56319 then
      match rest with
      | hi2 :: lo2 :: rest2 =>
        let u2 := hi2 * 256 + lo2
        if 56320 ≤ u2 ∧ u2 ≤ 57343 then
          Char.ofNat ((u - 55296) * 1024 + (u2 - 56320) + 65536) :: utf16beDecodeF fuel rest2
        else Char.ofNat 65533 :: utf16beDecodeF fuel rest
      | _ => [Char.ofNat 65533]
    else if 56320 ≤ u ∧ u ≤ 57343 then Char.ofNat 65533 :: utf16beDecodeF fuel rest
    else Char.ofNat u :: utf16beDecodeF fuel rest

/-- UTF-16BE text decoding of a whole byte list. -/
def utf16beDecode (bs : List Nat) : String := String.mk (utf16beDecodeF bs.length bs)

/-! ## Constant tables (src/constants.ts) -/

/-- `COMMAND_ID_MAP` of src/constants.ts. -/
def COMMAND_ID_MAP (id : Nat) : Option String :=
  if id = 1 then some "bind_receiver"
  else if id = 2147483649 then some "bind_receiver_resp"
  else if id = 2 then some "deliver_sm"
  else if id = 2147483650 then some "deliver_sm_resp"
  else if id = 3 then some "unbind"
  else if id = 2147483651 then some "unbind_resp"
  else if id = 4 then some "enquire_link"
  else if id = 2147483652 then some "enquire_link_resp"
  else none

/-- `DATA_CODING_MAP` of src/constants.ts. -/
def DATA_CODING_MAP (dc : Nat) : Option String :=
  if dc = 0 then some "Default (GSM 7-bit)"
  else if dc = 1 then some "IA5 (ASCII)"
  else if dc = 2 then some "8-bit binary"
  else if dc = 3 then some "Latin 1 (ISO-8859-1)"
  else if dc = 4 then some "UTF-8"
  else if dc = 5 then some "JIS"
  else if dc = 6 then some "Cyrillic (ISO-8859-5)"
  else if dc = 7 then some "Latin/Hebrew (ISO-8859-8)"
  else if dc = 8 then some "UCS-2 (ISO/IEC-10646)"
  else if dc = 9 then some "Pictogram Encoding"
  else if dc = 10 then some "ISO-2022-JP (Music Codes)"
  else if dc = 13 then some "Extended Kanji JIS"
  else if dc = 14 then some "KS C 5601"
  else none

/-- `ESM_CLASS_MAP` of src/constants.ts: the mode subfield is
`value & 0b11`, the type subfield is `value & 0b111100`; each is switched
over a fixed set of cases with "Unknown Mode" / "Unknown Type" defaults,
and the rendering is "type, mode". -/
def ESM_CLASS_MAP (value : Nat) : String :=
  let messageMode := value &&& 3
  let messageType := value &&& 60
  let modeStr :=
    if messageMode = 0 then "Default Mode"
    else if messageMode = 3 then "Store and Forward"
    else "Unknown Mode"
  let typeStr :=
    if messageType = 0 then "Default Message"
    else if messageType = 4 then "Delivery Receipt"
    else if messageType = 8 then "Delivery Acknowledgement"
    else if messageType = 64 then "Manual/User Acknowledgement"
    else if messageType = 96 then "Conversation Abort (Korean CDMA)"
    else if messageType = 128 then "Intermediate Delivery Notification"
    else "Unknown Type"
  typeStr ++ ", " ++ modeStr

/-! ## decodeMessage (parser source, lines 35-61) -/

/-- The human-readable scheme name:
`DATA_CODING_MAP[dataCoding] || "Unknown (0x...)"` (all table entries are
nonempty strings, so the JavaScript truthiness test is just presence). -/
def dataCodingScheme (dataCoding : Nat) : String :=
  (DATA_CODING_MAP dataCoding).getD ("Unknown (0x" ++ jsHexString dataCoding ++ ")")

/-- `decodeMessage` of the source. The try/catch of the source makes it
total; our decoder models never fail, matching `TextDecoder` in its
default non-fatal mode. -/
def decodeMessage (messageBuffer : List Nat) (dataCoding : Nat) : String :=
  let scheme := dataCodingScheme dataCoding
  let content :=
    if dataCoding = 8 then utf16beDecode messageBuffer
    else if dataCoding = 3 then latin1Decode messageBuffer
    else if dataCoding = 4 then utf8Decode messageBuffer
    else if dataCoding = 0 then "[GSM 7-bit encoded data: " ++ bufferToHex messageBuffer ++ "]"
    else "[Binary Data: " ++ bufferToHex messageBuffer ++ "]"
  "(" ++ scheme ++ ") " ++ content

/-! ## BufferReader (parser source, lines 69-139) -/

/-- `BufferReader`: a `DataView` over the whole buffer plus a cursor. -/
structure BufferReader where
  buf : List Nat
  offset : Nat
deriving DecidableEq

/-- `peekUint32(offset)`: `null` when fewer than 4 bytes remain at the
given absolute offset, otherwise the big-endian value. -/
def BufferReader.peekUint32 (r : BufferReader) (o : Nat) : Option Nat :=
  if r.buf.length < o + 4 then none else some (getU32BE r.buf o)

/-- `readUint32()`: big-endian; `DataView.getUint32` throws past the end. -/
def BufferReader.readUint32 (r : BufferReader) : Except String (Nat × BufferReader) :=
  if r.offset + 4 ≤ r.buf.length then
    .ok (getU32BE r.buf r.offset, ⟨r.buf, r.offset + 4⟩)
  else .error "RangeError: Offset is outside the bounds of the DataView"

/-- `readUint8()`: throws past the end. -/
def BufferReader.readUint8 (r : BufferReader) : Except String (Nat × BufferReader) :=
  if r.offset + 1 ≤ r.buf.length then
    .ok (getU8 r.buf r.offset, ⟨r.buf, r.offset + 1⟩)
  else .error "RangeError: Offset is outside the bounds of the DataView"

/-- Index of the first zero byte of a list (its length when there is none);
drives the `readCString` scan loop. -/
def findZero : List Nat → Nat
  | [] => 0
  | b :: rest => if b = 0 then 0 else findZero rest + 1

/-- `readCString()`: scan to the first NUL or the end of the buffer, decode
the scanned bytes as text, and skip the NUL when one was found. Never
fails. -/
def BufferReader.readCString (r : BufferReader) : String × BufferReader :=
  let tail := r.buf.drop r.offset
  let k := findZero tail
  let str := asciiDecode (tail.take k)
  let stop := r.offset + k
  if stop < r.buf.length then (str, ⟨r.buf, stop + 1⟩) else (str, ⟨r.buf, stop⟩)

/-- `readBytes(length)`: the `Uint8Array` view constructor throws when the
requested range leaves the buffer. -/
def BufferReader.readBytes (r : BufferReader) (len : Nat) : Except String (List Nat × BufferReader) :=
  if r.offset + len ≤ r.buf.length then
    .ok ((r.buf.drop r.offset).take len, ⟨r.buf, r.offset + len⟩)
  else .error "RangeError: Invalid typed array length"

/-- `bytesRemaining()`. -/
def BufferReader.bytesRemaining (r : BufferReader) : Nat := r.buf.length - r.offset

/-- `SmppTlv` of src/types: the value is kept as a hex string for display. -/
structure SmppTlv where
  tag : Nat
  length : Nat
  value : String
deriving DecidableEq

/-- `readTlv()`: `none` when fewer than 4 bytes remain or when the declared
length exceeds the remaining bytes minus the 4 header bytes; otherwise the
tag, length and hex-rendered value, with the cursor moved past the value. -/
def BufferReader.readTlv (r : BufferReader) : Option (SmppTlv × BufferReader) :=
  if r.bytesRemaining < 4 then none
  else
    let tag := getU16 r.buf r.offset
    let len := getU16 r.buf (r.offset + 2)
    if r.bytesRemaining - 4 < len then none
    else
      let value := (r.buf.drop (r.offset + 4)).take len
      some (⟨tag, len, bufferToHex value⟩, ⟨r.buf, r.offset + 4 + len⟩)

/-! ## Parsed-PDU data model -/

/-- A TLV as placed in `body.tlvs`: tag rendered as `0x` plus four hex
digits. -/
structure TlvDisplay where
  tag : String
  length : Nat
  value : String
deriving DecidableEq

/-- The `deliver_sm` body record built by `parseDeliverSmBody`. The source
stores it as a dynamic record; `short_message` is absent (here `none`) when
the declared length is zero or overruns the buffer, and `tlvs` is absent
(here `[]`) when no TLV was read. -/
structure DeliverSmBody where
  service_type : String
  source_addr_ton : Nat
  source_addr_npi : Nat
  source_address : String
  dest_addr_ton : Nat
  dest_addr_npi : Nat
  dest_address : String
  esm_class : String
  protocol_id : Nat
  priority_flag : Nat
  replace_if_present_flag : Nat
  data_coding : Nat
  sm_default_msg_id : Nat
  sm_length : Nat
  short_message : Option String
  tlvs : List TlvDisplay
  decoded_message : String
deriving DecidableEq

/-- `SmppHeader` of src/types. -/
structure SmppHeader where
  command_length : Nat
  command_id : Nat
  command_status : Nat
  sequence_no : Nat
  command_name : String
deriving DecidableEq

/-- The body of a parsed PDU: the `deliver_sm` record, or the
unsupported-command fallback `{ unsupported_command, raw_body }`. -/
inductive SmppBody where
  | deliverSm (body : DeliverSmBody)
  | unsupported (unsupported_command : String) (raw_body : String)
deriving DecidableEq

/-- `ParsedSmppData` of src/types. -/
structure ParsedSmppData where
  header : SmppHeader
  body : SmppBody
deriving DecidableEq

/-! ## parseDeliverSmBody (parser source, lines 141-203) -/

/-- The TLV scan loop of `parseDeliverSmBody` (lines 174-186): read TLVs
while bytes remain and `readTlv` succeeds, collecting them in order; a TLV
with tag 0x0424 replaces the effective message content with its value,
re-parsed from the hex string. Each successful `readTlv` advances the
cursor by at least 4 bytes, so fuel `bytesRemaining + 1` is never
exhausted. -/
def tlvLoopF : Nat → BufferReader → List SmppTlv → Option (List Nat) →
    List SmppTlv × Option (List Nat)
  | 0, _, tlvs, mc => (tlvs, mc)
  | fuel + 1, r, tlvs, mc =>
    if 0 < r.bytesRemaining then
      match r.readTlv with
      | some (tlv, r2) =>
        let mc2 := if tlv.tag = 1060 then some (hexStringToBytes tlv.value) else mc
        tlvLoopF fuel r2 (tlvs ++ [tlv]) mc2
      | none => (tlvs, mc)
    else (tlvs, mc)

/-- `parseDeliverSmBody`: fixed fields in order, the optional short message
(only when `0 < sm_length ≤ bytesRemaining`), the TLV scan, and the
decoded-message rendering (`message_payload` content when a tag-0x0424 TLV
was seen, else the short message, else a placeholder). -/
def parseDeliverSmBody (r0 : BufferReader) : Except String DeliverSmBody := do
  let (service_type, r1) := r0.readCString
  let (source_addr_ton, r2) ← r1.readUint8
  let (source_addr_npi, r3) ← r2.readUint8
  let (source_address, r4) := r3.readCString
  let (dest_addr_ton, r5) ← r4.readUint8
  let (dest_addr_npi, r6) ← r5.readUint8
  let (dest_address, r7) := r6.readCString
  let (esmClass, r8) ← r7.readUint8
  let (protocol_id, r9) ← r8.readUint8
  let (priority_flag, r10) ← r9.readUint8
  let (replace_if_present_flag, r11) ← r10.readUint8
  let (data_coding, r12) ← r11.readUint8
  let (sm_default_msg_id, r13) ← r12.readUint8
  let (sm_length, r14) ← r13.readUint8
  let (short_message, mc0, r15) ←
    if 0 < sm_length ∧ sm_length ≤ r14.bytesRemaining then do
      let (bs, r') ← r14.readBytes sm_length
      pure (some (bufferToHex bs), some bs, r')
    else pure ((none : Option String), (none : Option (List Nat)), r14)
  let (tlvs, mc) := tlvLoopF (r15.bytesRemaining + 1) r15 [] mc0
  let decoded_message :=
    match mc with
    | some mcv => decodeMessage mcv data_coding
    | none => "(No message content)"
  pure
    { service_type := service_type
      source_addr_ton := source_addr_ton
      source_addr_npi := source_addr_npi
      source_address := source_address
      dest_addr_ton := dest_addr_ton
      dest_addr_npi := dest_addr_npi
      dest_address := dest_address
      esm_class := ESM_CLASS_MAP esmClass ++ " (0x" ++ padStartZero 2 (jsHexString esmClass) ++ ")"
      protocol_id := protocol_id
      priority_flag := priority_flag
      replace_if_present_flag := replace_if_present_flag
      data_coding := data_coding
      sm_default_msg_id := sm_default_msg_id
      sm_length := sm_length
      short_message := short_message
      tlvs := tlvs.map fun t =>
        ⟨"0x" ++ padStartZero 4 (jsHexString t.tag), t.length, t.value⟩
      decoded_message := decoded_message }

/-! ## parseSmppPdu (parser source, lines 206-240) -/

/-- `parseSmppPdu`: the four big-endian header words, the command-name
lookup (`"Unknown Command"` fallback), and the body dispatch. The
command-length mismatch warning of the source is a console diagnostic with
no semantic effect and is not modelled. -/
def parseSmppPdu (pduBuffer : List Nat) : Except String ParsedSmppData := do
  let r0 : BufferReader := ⟨pduBuffer, 0⟩
  let (command_length, r1) ← r0.readUint32
  let (command_id, r2) ← r1.readUint32
  let (command_status, r3) ← r2.readUint32
  let (sequence_no, r4) ← r3.readUint32
  let commandName := (COMMAND_ID_MAP command_id).getD "Unknown Command"
  let hdr : SmppHeader :=
    ⟨command_length, command_id, command_status, sequence_no, commandName⟩
  if commandName = "deliver_sm" then
    let body ← parseDeliverSmBody r4
    pure ⟨hdr, .deliverSm body⟩
  else
    let remainingBytes := r4.bytesRemaining
    let raw_body ←
      if 0 < remainingBytes then do
        let (bs, _) ← r4.readBytes remainingBytes
        pure (bufferToHex bs)
      else pure "No body"
    pure ⟨hdr, .unsupported
      ("Parser for " ++ commandName ++ " (0x" ++ jsHexString command_id ++ ") is not implemented.")
      raw_body⟩

/-! ## parseMultipleSmppPdus (parser source, lines 242-282) -/

/-- The re-synchronizing boundary scan: while at least 16 bytes remain at
the cursor, peek the command id at `cursor + 4`; when it is known, peek the
command length at `cursor` and accept it when `16 ≤ length` and the slice
fits; a successfully parsed slice is appended and the cursor advances by
`length`, while a failed heuristic or a parse error advances the cursor by
one byte. Every iteration advances the cursor, so fuel
`payload length + 1` is never exhausted. -/
def scanLoopF : Nat → List Nat → Nat → List ParsedSmppData → List ParsedSmppData
  | 0, _, _, acc => acc
  | fuel + 1, payload, offset, acc =>
    if offset + 16 ≤ payload.length then
      if (COMMAND_ID_MAP (getU32BE payload (offset + 4))).isSome then
        let commandLength := getU32BE payload offset
        if 16 ≤ commandLength ∧ offset + commandLength ≤ payload.length then
          match parseSmppPdu ((payload.drop offset).take commandLength) with
          | .ok pdu => scanLoopF fuel payload (offset + commandLength) (acc ++ [pdu])
          | .error _ => scanLoopF fuel payload (offset + 1) acc
        else scanLoopF fuel payload (offset + 1) acc
      else scanLoopF fuel payload (offset + 1) acc
    else acc

/-- `parseMultipleSmppPdus`. -/
def parseMultipleSmppPdus (tcpPayload : List Nat) : List ParsedSmppData :=
  scanLoopF (tcpPayload.length + 1) tcpPayload 0 []

/-! ## extractAllTcpPayloads (parser source, lines 307-404) -/

/-- `PacketSummary` of src/types. `length` is the JavaScript number
`incl_len - totalHeaderLength`, which can be negative, hence `Int`. -/
structure PacketSummary where
  index : Nat
  sourceIp : String
  destIp : String
  sourcePort : Nat
  destPort : Nat
  length : Int
  info : String
  payload : List Nat
deriving DecidableEq

/-- The info line of a summary: when both peeks succeed and the peeked
command length is plausible (`16 ≤ len ≤ payload size`), the command name
(or an unknown-command note), with " (Multiple)" appended when the payload
extends past one PDU; otherwise "SMPP Data". -/
def packetInfo (payload : List Nat) : String :=
  let reader : BufferReader := ⟨payload, 0⟩
  match reader.peekUint32 0, reader.peekUint32 4 with
  | some cmdLen, some cmdId =>
    if 16 ≤ cmdLen ∧ cmdLen ≤ payload.length then
      ((COMMAND_ID_MAP cmdId).getD ("Unknown Command (0x" ++ jsHexString cmdId ++ ")")) ++
        (if cmdLen < payload.length then " (Multiple)" else "")
    else "SMPP Data"
  | _, _ => "SMPP Data"

/-- The per-record loop of `extractAllTcpPayloads` (lines 327-401). Reads
guaranteed in bounds by the guards of the source (the record-header fields,
the EtherType at `packetStart + 12` and the IHL byte at `ipHeaderOffset`,
all inside a record already known to hold at least 15 bytes within the
buffer) use the unchecked accessors; every other `DataView` access uses the
checked ones and can surface a `RangeError`. The cursor advances by
`16 + incl_len ≥ 16` per iteration from a position `< buffer length`, so
fuel `buffer length + 1` is never exhausted. -/
def extractLoopF : Nat → List Nat → Bool → Nat → Nat → List PacketSummary →
    Except String (List PacketSummary)
  | 0, _, _, _, _, acc => .ok acc
  | fuel + 1, buf, le, offset, idx, acc =>
    if offset < buf.length then
      if buf.length < offset + 16 then .ok acc
      else
        let incl_len := getU32 buf (offset + 8) le
        let packetStart := offset + 16
        if buf.length < packetStart + incl_len then .ok acc
        else
          let ipHeaderOffset := packetStart + 14
          if packetStart + incl_len ≤ ipHeaderOffset then
            extractLoopF fuel buf le (offset + 16 + incl_len) idx acc
          else if getU16 buf (packetStart + 12) ≠ 2048 then
            extractLoopF fuel buf le (offset + 16 + incl_len) idx acc
          else do
            let ipHeaderLength := (getU8 buf ipHeaderOffset &&& 15) * 4
            let ipProtocol ← getU8E buf (ipHeaderOffset + 9)
            if ipProtocol ≠ 6 then
              extractLoopF fuel buf le (offset + 16 + incl_len) idx acc
            else do
              let s0 ← getU8E buf (ipHeaderOffset + 12)
              let s1 ← getU8E buf (ipHeaderOffset + 13)
              let s2 ← getU8E buf (ipHeaderOffset + 14)
              let s3 ← getU8E buf (ipHeaderOffset + 15)
              let d0 ← getU8E buf (ipHeaderOffset + 16)
              let d1 ← getU8E buf (ipHeaderOffset + 17)
              let d2 ← getU8E buf (ipHeaderOffset + 18)
              let d3 ← getU8E buf (ipHeaderOffset + 19)
              let sourceIp := Nat.repr s0 ++ "." ++ Nat.repr s1 ++ "." ++ Nat.repr s2 ++ "." ++ Nat.repr s3
              let destIp := Nat.repr d0 ++ "." ++ Nat.repr d1 ++ "." ++ Nat.repr d2 ++ "." ++ Nat.repr d3
              let tcpHeaderOffset := ipHeaderOffset + ipHeaderLength
              let sourcePort ← getU16E buf tcpHeaderOffset
              let destPort ← getU16E buf (tcpHeaderOffset + 2)
              let dataOffsetByte ← getU8E buf (tcpHeaderOffset + 12)
              let tcpHeaderLength := ((dataOffsetByte &&& 240) >>> 4) * 4
              let payloadOffset := tcpHeaderOffset + tcpHeaderLength
              let totalHeaderLength := payloadOffset - packetStart
              let payloadLength : Int := (incl_len : Int) - (totalHeaderLength : Int)
              if 16 < payloadLength then
                let payload := (buf.drop payloadOffset).take payloadLength.toNat
                let summary : PacketSummary :=
                  { index := idx + 1
                    sourceIp := sourceIp
                    destIp := destIp
                    sourcePort := sourcePort
                    destPort := destPort
                    length := payloadLength
                    info := packetInfo payload
                    payload := payload }
                extractLoopF fuel buf le (offset + 16 + incl_len) (idx + 1) (acc ++ [summary])
              else
                extractLoopF fuel buf le (offset + 16 + incl_len) idx acc
    else .ok acc

/-- `extractAllTcpPayloads`: global-header validation (24-byte minimum, two
accepted magic values selecting the byte order of the record headers),
then the per-record loop starting at offset 24. -/
def extractAllTcpPayloads (pcapBuffer : List Nat) : Except String (List PacketSummary) :=
  if pcapBuffer.length < 24 then
    .error "Invalid PCAP file: too short for global header."
  else
    let magic := getU32BE pcapBuffer 0
    if magic = 2712847316 then extractLoopF (pcapBuffer.length + 1) pcapBuffer false 24 0 []
    else if magic = 3569595041 then extractLoopF (pcapBuffer.length + 1) pcapBuffer true 24 0 []
    else .error "Unsupported or invalid PCAP file: magic number is incorrect."

/-! ## The record-iteration skeleton (capture-container layer)

The spec separates a `CaptureContainerReader` from the frame stripping; in
the source both live in `extractAllTcpPayloads`. The two definitions below
are the record-iteration skeleton of that function — exactly its lines
324-333 and 400 (the loop guard, the `incl_len` read at `offset + 8`, the
two stop conditions and the cursor advance), with the per-record frame
processing elided. Each yielded pair is `(packetStart, incl_len)`. -/

/-- The record-iteration loop: stop when the cursor leaves the buffer, when
fewer than 16 bytes remain for a record header, or when the declared
captured length would exceed the buffer; otherwise yield the record and
advance by `16 + incl_len`. -/
def captureLoopF : Nat → List Nat → Bool → Nat → List (Nat × Nat) → List (Nat × Nat)
  | 0, _, _, _, acc => acc
  | fuel + 1, buf, le, offset, acc =>
    if offset < buf.length then
      if buf.length < offset + 16 then acc
      else
        let incl_len := getU32 buf (offset + 8) le
        if buf.length < offset + 16 + incl_len then acc
        else captureLoopF fuel buf le (offset + 16 + incl_len) (acc ++ [(offset + 16, incl_len)])
    else acc

/-- The capture-container reader: global-header validation as in
`extractAllTcpPayloads`, then the record iteration from offset 24. -/
def captureRecords (pcapBuffer : List Nat) : Except String (List (Nat × Nat)) :=
  if pcapBuffer.length < 24 then
    .error "Invalid PCAP file: too short for global header."
  else
    let magic := getU32BE pcapBuffer 0
    if magic = 2712847316 then .ok (captureLoopF (pcapBuffer.length + 1) pcapBuffer false 24 [])
    else if magic = 3569595041 then .ok (captureLoopF (pcapBuffer.length + 1) pcapBuffer true 24 [])
    else .error "Unsupported or invalid PCAP file: magic number is incorrect."

/-! ## Claim-facing predicates and spec-side tables -/

/-- The acceptance heuristics of the boundary scanner at one offset: a
recognized command id at `offset + 4` and a declared length that is at
least 16 and fits in the payload (spec 4.3, steps 2-3). -/
def heurAccept (payload : List Nat) (offset : Nat) : Prop :=
  (COMMAND_ID_MAP (getU32BE payload (offset + 4))).isSome ∧
    16 ≤ getU32BE payload offset ∧ offset + getU32BE payload offset ≤ payload.length

instance (payload : List Nat) (offset : Nat) : Decidable (heurAccept payload offset) := by
  unfold heurAccept
  infer_instance

/-- The messaging-mode lookup table of the claim, keyed by the 2-bit mode
subfield (bits 0-1 of the ESM-class byte). -/
def esmModeTable (m : Nat) : Option String :=
  if m = 0 then some "Default Mode"
  else if m = 3 then some "Store and Forward"
  else none

/-- The message-type lookup table of the claim, keyed by the 4-bit type
subfield (bits 2-5 of the ESM-class byte); the keys are the masked values
of the source table divided by 4, so the last three entries (from masked
values 0x40, 0x60, 0x80 of the source) lie outside the 4-bit range and are
unreachable. -/
def esmTypeTable (t : Nat) : Option String :=
  if t = 0 then some "Default Message"
  else if t = 1 then some "Delivery Receipt"
  else if t = 2 then some "Delivery Acknowledgement"
  else if t = 16 then some "Manual/User Acknowledgement"
  else if t = 24 then some "Conversation Abort (Korean CDMA)"
  else if t = 32 then some "Intermediate Delivery Notification"
  else none

/-! ## Concrete inputs used by the claims -/

/-- The 16-byte `enquire_link` PDU of the spec round-trip test:
commandLength 16, commandId 4, commandStatus 0, sequenceNo 1. -/
def enquirePdu : List Nat := [0, 0, 0, 16, 0, 0, 0, 4, 0, 0, 0, 0, 0, 0, 0, 1]

/-- A 16-byte `enquire_link_resp` PDU (commandId 0x80000004). -/
def enquireRespPdu : List Nat := [0, 0, 0, 16, 128, 0, 0, 4, 0, 0, 0, 0, 0, 0, 0, 2]

/-- A 16-byte buffer whose commandId 2 names `deliver_sm`, so body parsing
starts at the end of the buffer. -/
def deliverSmHeaderOnly : List Nat := [0, 0, 0, 16, 0, 0, 0, 2, 0, 0, 0, 0, 0, 0, 0, 1]

/-- The Ethernet-II / IPv4 / TCP frame of the round-trip test: source
10.0.0.1:2775, destination 10.0.0.2:9999, 20-byte IPv4 header (protocol
TCP), 20-byte TCP header, then the `enquire_link` PDU and `extra`. -/
def c1frame (extra : List Nat) : List Nat :=
  [1, 2, 3, 4, 5, 6, 6, 5, 4, 3, 2, 1, 8, 0] ++
  [69, 0, 0, 0, 0, 0, 0, 0, 64, 6, 0, 0, 10, 0, 0, 1, 10, 0, 0, 2] ++
  [10, 215, 39, 15, 0, 0, 0, 0, 0, 0, 0, 0, 80, 24, 0, 0, 0, 0, 0, 0] ++
  enquirePdu ++ extra

/-- The claim C1 capture: valid big-endian global header and exactly one
record carrying the frame above with a TCP payload of exactly 16 bytes
(captured length 70 = 14 + 20 + 20 + 16). -/
def c1cap : List Nat :=
  [161, 178, 195, 212] ++ List.replicate 20 0 ++
  [0, 0, 0, 0, 0, 0, 0, 0, 0, 0, 0, 70, 0, 0, 0, 70] ++ c1frame []

/-- The same capture with one extra byte after the PDU (captured length 71,
TCP payload 17 bytes), which does pass the strict `payloadLength > 16`
filter of the frame stripper. -/
def c1cap17 : List Nat :=
  [161, 178, 195, 212] ++ List.replicate 20 0 ++
  [0, 0, 0, 0, 0, 0, 0, 0, 0, 0, 0, 71, 0, 0, 0, 71] ++ c1frame [171]

/-- The packet summary produced for `c1cap17`. -/
def c1summary : PacketSummary :=
  { index := 1
    sourceIp := "10.0.0.1"
    destIp := "10.0.0.2"
    sourcePort := 2775
    destPort := 9999
    length := 17
    info := "enquire_link (Multiple)"
    payload := enquirePdu ++ [171] }

/-- The parsed `enquire_link` PDU. -/
def c1pdu : ParsedSmppData :=
  ⟨⟨16, 4, 0, 1, "enquire_link"⟩,
    .unsupported "Parser for enquire_link (0x4) is not implemented." "No body"⟩

/-- The parse result of `enquirePdu`, used for the boundary-scan claim. -/
def c2r1 : ParsedSmppData :=
  ⟨⟨16, 4, 0, 1, "enquire_link"⟩,
    .unsupported "Parser for enquire_link (0x4) is not implemented." "No body"⟩

/-- The parse result of `enquireRespPdu`. -/
def c2r2 : ParsedSmppData :=
  ⟨⟨16, 2147483652, 0, 2, "enquire_link_resp"⟩,
    .unsupported "Parser for enquire_link_resp (0x80000004) is not implemented." "No body"⟩

/-- A capture with a valid global header and one record of `rb.length ≤ 255`
captured bytes `rb` as the trailing record (record header written out
byte-for-byte, captured length at bytes 32-35 big-endian). -/
def c3cap (rb : List Nat) : List Nat :=
  161 :: 178 :: 195 :: 212 ::
    0 :: 0 :: 0 :: 0 :: 0 :: 0 :: 0 :: 0 :: 0 :: 0 :: 0 :: 0 :: 0 :: 0 :: 0 :: 0 ::
    0 :: 0 :: 0 :: 0 ::
    0 :: 0 :: 0 :: 0 :: 0 :: 0 :: 0 :: 0 :: 0 :: 0 :: 0 :: rb.length ::
    0 :: 0 :: 0 :: rb.length :: rb

/-- A capture whose single 15-byte record passes the EtherType check
(0x0800 at frame bytes 12-13) and starts an IPv4 header (0x45), but ends
before the protocol byte at frame offset 23, which sits past the end of
the whole buffer. -/
def c3short : List Nat :=
  [161, 178, 195, 212] ++ List.replicate 20 0 ++
  [0, 0, 0, 0, 0, 0, 0, 0, 0, 0, 0, 15, 0, 0, 0, 15] ++
  [1, 2, 3, 4, 5, 6, 6, 5, 4, 3, 2, 1, 8, 0, 69]

/-- A capture with a valid global header followed by a record header whose
captured-length field is 0xFFFFFFFF (the corrupted-length test of the
spec). -/
def c4corrupt : List Nat :=
  [161, 178, 195, 212] ++ List.replicate 20 0 ++
  [0, 0, 0, 0, 0, 0, 0, 0, 255, 255, 255, 255, 255, 255, 255, 255]

/-- A `deliver_sm` body for the TLV-precedence claim: empty C-octet
strings, ESM class 0, data coding `dc`, a short message `sm` (length byte
then bytes), then a single TLV with tag 0x0424 (bytes 4, 36) carrying
`pv`. -/
def c6body (sm pv : List Nat) (dc : Nat) : List Nat :=
  0 :: 1 :: 1 :: 0 :: 1 :: 1 :: 0 :: 0 :: 0 :: 0 :: 0 :: dc :: 0 :: sm.length ::
    (sm ++ (4 :: 36 :: (pv.length / 256) :: (pv.length % 256) :: pv))

/-- A `deliver_sm` body for the malformed-TLV claim: no short message, one
well-formed TLV (tag bytes `t1 t2`, value `v`), then a TLV whose header
declares length 9999 (bytes 39, 15) with only `extra` bytes after it. -/
def c7body (t1 t2 : Nat) (v extra : List Nat) (dc : Nat) : List Nat :=
  0 :: 1 :: 1 :: 0 :: 1 :: 1 :: 0 :: 0 :: 0 :: 0 :: 0 :: dc :: 0 :: 0 ::
    (t1 :: t2 :: (v.length / 256) :: (v.length % 256) ::
      (v ++ (80 :: 66 :: 39 :: 15 :: extra)))


/-! ## Helper lemmas: pointwise evaluation of the reader operations -/

lemma getU8_eq_getElem {buf : List Nat} {o : Nat} (h : o < buf.length) :
    getU8 buf o = buf[o] := by
  simp [getU8, List.getD, List.getElem?_eq_getElem h]

lemma readUint8_eval {buf : List Nat} {o b : Nat} (hb : getU8 buf o = b)
    (h : o + 1 ≤ buf.length) :
    BufferReader.readUint8 ⟨buf, o⟩ = .ok (b, ⟨buf, o + 1⟩) := by
  simp [BufferReader.readUint8, h, hb]

lemma readUint32_eval {buf : List Nat} {o : Nat} (h : o + 4 ≤ buf.length) :
    BufferReader.readUint32 ⟨buf, o⟩ = .ok (getU32BE buf o, ⟨buf, o + 4⟩) := by
  simp [BufferReader.readUint32, h]

lemma readCString_eval0 {buf : List Nat} {o : Nat} (hb : getU8 buf o = 0)
    (h : o < buf.length) :
    BufferReader.readCString ⟨buf, o⟩ = ("", ⟨buf, o + 1⟩) := by
  have hd : buf.drop o = 0 :: buf.drop (o + 1) := by
    rw [List.drop_eq_getElem_cons h, ← getU8_eq_getElem h, hb]
  simp [BufferReader.readCString, hd, findZero, asciiDecode, h]

lemma readBytes_eval {buf : List Nat} {o n : Nat} (h : o + n ≤ buf.length) :
    BufferReader.readBytes ⟨buf, o⟩ n = .ok ((buf.drop o).take n, ⟨buf, o + n⟩) := by
  simp [BufferReader.readBytes, h]

lemma getU8_add_drop (buf : List Nat) (o i : Nat) :
    getU8 buf (o + i) = getU8 (buf.drop o) i := by
  simp [getU8, List.getD, List.getElem?_drop]

lemma bytesRemaining_of_drop {buf : List Nat} {o : Nat} {t : List Nat}
    (hd : buf.drop o = t) : BufferReader.bytesRemaining ⟨buf, o⟩ = t.length := by
  have := congrArg List.length hd
  simp only [List.length_drop] at this
  simpa [BufferReader.bytesRemaining] using this

lemma getU8_at_drop {buf : List Nat} {o : Nat} {t : List Nat} (i : Nat)
    (hd : buf.drop o = t) : getU8 buf (o + i) = getU8 t i := by
  rw [getU8_add_drop, hd]

lemma readTlv_eval_ok {buf : List Nat} {o t1 t2 n1 n2 : Nat} {v rest : List Nat}
    (hd : buf.drop o = t1 :: t2 :: n1 :: n2 :: (v ++ rest))
    (hv : n1 * 256 + n2 = v.length) :
    BufferReader.readTlv ⟨buf, o⟩ =
      some (⟨t1 * 256 + t2, v.length, bufferToHex v⟩, ⟨buf, o + 4 + v.length⟩) := by
  have hrem : BufferReader.bytesRemaining ⟨buf, o⟩ = 4 + (v.length + rest.length) := by
    rw [bytesRemaining_of_drop hd]
    simp only [List.length_cons, List.length_append]
    omega
  have h0 : getU8 buf o = t1 := by
    have := getU8_at_drop 0 hd
    rw [Nat.add_zero] at this
    exact this
  have h1 : getU8 buf (o + 1) = t2 := getU8_at_drop 1 hd
  have h2 : getU8 buf (o + 2) = n1 := getU8_at_drop 2 hd
  have h3' : getU8 buf (o + 2 + 1) = n2 := by
    rw [show o + 2 + 1 = o + 3 by omega]
    exact getU8_at_drop 3 hd
  have htag : getU16 buf o = t1 * 256 + t2 := by rw [getU16, h0, h1]
  have hlen2 : getU16 buf (o + 2) = n1 * 256 + n2 := by rw [getU16, h2, h3']
  have hval : (buf.drop (o + 4)).take (n1 * 256 + n2) = v := by
    have hdd : (buf.drop o).drop 4 = v ++ rest := by rw [hd]; rfl
    rw [List.drop_drop] at hdd
    rw [hdd, hv, List.take_left]
  simp only [BufferReader.readTlv, hrem, htag, hlen2, hval]
  rw [if_neg (by omega), if_neg (by omega)]
  rw [hv]

lemma readTlv_eval_none {buf : List Nat} {o t1 t2 n1 n2 : Nat} {rest : List Nat}
    (hd : buf.drop o = t1 :: t2 :: n1 :: n2 :: rest)
    (hlt : rest.length < n1 * 256 + n2) :
    BufferReader.readTlv ⟨buf, o⟩ = none := by
  have hrem : BufferReader.bytesRemaining ⟨buf, o⟩ = 4 + rest.length := by
    rw [bytesRemaining_of_drop hd]
    simp only [List.length_cons]
    omega
  have h2 : getU8 buf (o + 2) = n1 := getU8_at_drop 2 hd
  have h3' : getU8 buf (o + 2 + 1) = n2 := by
    rw [show o + 2 + 1 = o + 3 by omega]
    exact getU8_at_drop 3 hd
  have hlen2 : getU16 buf (o + 2) = n1 * 256 + n2 := by rw [getU16, h2, h3']
  simp only [BufferReader.readTlv, hrem, hlen2]
  rw [if_neg (by omega), if_pos (by omega)]

lemma tlvLoopF_step {r r2 : BufferReader} {tlv : SmppTlv} (f : Nat)
    (tlvs : List SmppTlv) (mc : Option (List Nat))
    (hrem : 0 < r.bytesRemaining) (ht : r.readTlv = some (tlv, r2)) :
    tlvLoopF (f + 1) r tlvs mc =
      tlvLoopF f r2 (tlvs ++ [tlv])
        (if tlv.tag = 1060 then some (hexStringToBytes tlv.value) else mc) := by
  simp [tlvLoopF, hrem, ht]

lemma tlvLoopF_none {r : BufferReader} (f : Nat) (tlvs : List SmppTlv)
    (mc : Option (List Nat)) (ht : r.readTlv = none) :
    tlvLoopF f r tlvs mc = (tlvs, mc) := by
  cases f <;> simp [tlvLoopF, ht]

lemma tlvLoopF_end {r : BufferReader} (f : Nat) (tlvs : List SmppTlv)
    (mc : Option (List Nat)) (h : r.bytesRemaining = 0) :
    tlvLoopF f r tlvs mc = (tlvs, mc) := by
  cases f <;> simp [tlvLoopF, h]

/-! ## Helper lemmas: the hex round trip of the tag-0x0424 branch -/

set_option maxRecDepth 4000 in
lemma toHexByte_no_space : ∀ b < 256, ' ' ∉ (toHexByte b).data := by decide

set_option maxRecDepth 4000 in
lemma jsParseHexByte_toHexByte : ∀ b < 256, jsParseHexByte (toHexByte b).data = b := by decide

lemma splitSpace_no_space (w : List Char) (h : ' ' ∉ w) : splitSpace w = [w] := by
  induction w with
  | nil => rfl
  | cons c r ih =>
    have hc : ¬ c = ' ' := fun hh => h (hh ▸ List.mem_cons_self c r)
    have hr := ih fun hh => h (List.mem_cons_of_mem c hh)
    simp [splitSpace, hc, hr]

lemma splitSpace_sep (w t : List Char) (h : ' ' ∉ w) :
    splitSpace (w ++ ' ' :: t) = w :: splitSpace t := by
  induction w with
  | nil => simp [splitSpace]
  | cons c r ih =>
    have hc : ¬ c = ' ' := fun hh => h (hh ▸ List.mem_cons_self c r)
    have hr := ih fun hh => h (List.mem_cons_of_mem c hh)
    simp [splitSpace, hc, hr]

lemma splitSpace_joinSpace : ∀ ws : List (List Char), ws ≠ [] →
    (∀ w ∈ ws, ' ' ∉ w) → splitSpace (joinSpace ws) = ws
  | [], h, _ => absurd rfl h
  | [w], _, hw => by
    simp only [joinSpace]
    exact splitSpace_no_space w (hw w (List.mem_singleton_self w))
  | w :: x :: xs, _, hw => by
    have hrest := splitSpace_joinSpace (x :: xs) (by simp)
      (fun u hu => hw u (List.mem_cons_of_mem w hu))
    simp only [joinSpace]
    rw [splitSpace_sep w (joinSpace (x :: xs)) (hw w (List.mem_cons_self w _)), hrest]

lemma hexStringToBytes_bufferToHex (bs : List Nat) (h : bs ≠ [])
    (hb : ∀ b ∈ bs, b < 256) : hexStringToBytes (bufferToHex bs) = bs := by
  have hws : (bs.map fun b => (toHexByte b).data) ≠ [] := by
    simpa using h
  have hsp : ∀ w ∈ bs.map fun b => (toHexByte b).data, ' ' ∉ w := by
    intro w hw
    rcases List.mem_map.mp hw with ⟨b, hbmem, rfl⟩
    exact toHexByte_no_space b (hb b hbmem)
  show (splitSpace (String.mk (joinSpace (bs.map fun b => (toHexByte b).data))).data).map
      jsParseHexByte = bs
  rw [show (String.mk (joinSpace (bs.map fun b => (toHexByte b).data))).data =
      joinSpace (bs.map fun b => (toHexByte b).data) from rfl]
  rw [splitSpace_joinSpace _ hws hsp, List.map_map]
  have : ∀ b ∈ bs, (jsParseHexByte ∘ fun b => (toHexByte b).data) b = id b := by
    intro b hbmem
    exact jsParseHexByte_toHexByte b (hb b hbmem)
  rw [List.map_congr_left this, List.map_id]

/-! ## Helper lemmas: reads across list concatenation -/

lemma getU8_append_left {l1 l2 : List Nat} {i : Nat} (h : i < l1.length) :
    getU8 (l1 ++ l2) i = getU8 l1 i :=
  List.getD_append _ _ _ _ h

lemma getU8_append_right (l1 l2 : List Nat) (i : Nat) :
    getU8 (l1 ++ l2) (l1.length + i) = getU8 l2 i := by
  simp only [getU8]
  rw [List.getD_append_right _ _ _ _ (Nat.le_add_right _ _), Nat.add_sub_cancel_left]

lemma getU32BE_append_left {l1 l2 : List Nat} {i : Nat} (h : i + 4 ≤ l1.length) :
    getU32BE (l1 ++ l2) i = getU32BE l1 i := by
  simp only [getU32BE]
  rw [getU8_append_left (by omega), getU8_append_left (by omega),
    getU8_append_left (by omega), getU8_append_left (by omega)]

lemma getU32BE_append_right (l1 l2 : List Nat) (i : Nat) :
    getU32BE (l1 ++ l2) (l1.length + i) = getU32BE l2 i := by
  simp only [getU32BE]
  rw [show l1.length + i + 1 = l1.length + (i + 1) by omega,
    show l1.length + i + 2 = l1.length + (i + 2) by omega,
    show l1.length + i + 3 = l1.length + (i + 3) by omega,
    getU8_append_right, getU8_append_right, getU8_append_right, getU8_append_right]

lemma getU32BE_append_at (l1 l2 : List Nat) :
    getU32BE (l1 ++ l2) l1.length = getU32BE l2 0 := by
  have := getU32BE_append_right l1 l2 0
  simpa using this

/-! ## Helper lemmas: one step of the boundary scan -/

lemma scanLoopF_stop (f : Nat) {p : List Nat} {o : Nat} (acc : List ParsedSmppData)
    (h : p.length < o + 16) : scanLoopF f p o acc = acc := by
  cases f with
  | zero => rfl
  | succ f => simp only [scanLoopF, if_neg (show ¬ o + 16 ≤ p.length by omega)]

lemma scanLoopF_accept (f : Nat) {p : List Nat} {o : Nat} (acc : List ParsedSmppData)
    {r : ParsedSmppData} (h16 : o + 16 ≤ p.length) (hacc : heurAccept p o)
    (hok : parseSmppPdu ((p.drop o).take (getU32BE p o)) = .ok r) :
    scanLoopF (f + 1) p o acc = scanLoopF f p (o + getU32BE p o) (acc ++ [r]) := by
  obtain ⟨hid, hcl, hfit⟩ := hacc
  simp only [scanLoopF, if_pos h16, if_pos hid, if_pos (And.intro hcl hfit), hok]

lemma scanLoopF_err (f : Nat) {p : List Nat} {o : Nat} (acc : List ParsedSmppData)
    {e : String} (h16 : o + 16 ≤ p.length) (hacc : heurAccept p o)
    (herr : parseSmppPdu ((p.drop o).take (getU32BE p o)) = .error e) :
    scanLoopF (f + 1) p o acc = scanLoopF f p (o + 1) acc := by
  obtain ⟨hid, hcl, hfit⟩ := hacc
  simp only [scanLoopF, if_pos h16, if_pos hid, if_pos (And.intro hcl hfit), herr]

lemma scanLoopF_skip (f : Nat) {p : List Nat} {o : Nat} (acc : List ParsedSmppData)
    (h16 : o + 16 ≤ p.length) (hmiss : ¬ heurAccept p o) :
    scanLoopF (f + 1) p o acc = scanLoopF f p (o + 1) acc := by
  by_cases hid : (COMMAND_ID_MAP (getU32BE p (o + 4))).isSome
  · have hrej : ¬ (16 ≤ getU32BE p o ∧ o + getU32BE p o ≤ p.length) := by
      intro hc
      exact hmiss ⟨hid, hc⟩
    simp only [scanLoopF, if_pos h16, if_pos hid, if_neg hrej]
  · simp only [scanLoopF, if_pos h16, if_neg hid]

lemma scanLoopF_walk : ∀ (k f : Nat) (p : List Nat) (o : Nat) (acc : List ParsedSmppData),
    (∀ j, o ≤ j → j < o + k → j + 16 ≤ p.length ∧ ¬ heurAccept p j) →
    scanLoopF (k + f) p o acc = scanLoopF f p (o + k) acc
  | 0, f, p, o, acc, _ => by simp
  | k + 1, f, p, o, acc, h => by
    have h0 := h o (Nat.le_refl o) (by omega)
    rw [show k + 1 + f = (k + f) + 1 by omega, scanLoopF_skip (k + f) acc h0.1 h0.2]
    rw [scanLoopF_walk k f p (o + 1) acc (fun j hj1 hj2 => h j (by omega) (by omega))]
    rw [show o + 1 + k = o + (k + 1) by omega]

lemma scanLoopF_fuel : ∀ (f g : Nat) (p : List Nat) (o : Nat) (acc : List ParsedSmppData),
    p.length - o < f → p.length - o < g → scanLoopF f p o acc = scanLoopF g p o acc
  | 0, _, _, _, _, hf, _ => absurd hf (by omega)
  | f + 1, g, p, o, acc, hf, hg => by
    by_cases h16 : o + 16 ≤ p.length
    · have hg1 : g = (g - 1) + 1 := by omega
      by_cases hacc : heurAccept p o
      · rcases hps : parseSmppPdu ((p.drop o).take (getU32BE p o)) with e | r
        · rw [scanLoopF_err f acc h16 hacc hps, hg1, scanLoopF_err (g - 1) acc h16 hacc hps]
          exact scanLoopF_fuel f (g - 1) p (o + 1) acc (by omega) (by omega)
        · obtain ⟨hid, hcl, hfit⟩ := hacc
          rw [scanLoopF_accept f acc h16 ⟨hid, hcl, hfit⟩ hps, hg1,
            scanLoopF_accept (g - 1) acc h16 ⟨hid, hcl, hfit⟩ hps]
          exact scanLoopF_fuel f (g - 1) p (o + getU32BE p o) (acc ++ [r])
            (by omega) (by omega)
      · rw [scanLoopF_skip f acc h16 hacc, hg1, scanLoopF_skip (g - 1) acc h16 hacc]
        exact scanLoopF_fuel f (g - 1) p (o + 1) acc (by omega) (by omega)
    · rw [scanLoopF_stop _ _ (by omega), scanLoopF_stop _ _ (by omega)]

/-- The header of any successfully parsed PDU slice of at least 16 bytes is
the four big-endian words of its first 16 bytes plus the resolved name. -/
lemma parseSmppPdu_header {p : List Nat} {r : ParsedSmppData}
    (h16 : 16 ≤ p.length) (hok : parseSmppPdu p = .ok r) :
    r.header = ⟨getU32BE p 0, getU32BE p 4, getU32BE p 8, getU32BE p 12,
      (COMMAND_ID_MAP (getU32BE p 4)).getD "Unknown Command"⟩ := by
  simp only [parseSmppPdu, bind, Except.bind, pure, Except.pure] at hok
  rw [readUint32_eval (by omega)] at hok
  simp only [] at hok
  rw [readUint32_eval (by omega)] at hok
  simp only [] at hok
  rw [readUint32_eval (by omega)] at hok
  simp only [] at hok
  rw [readUint32_eval (by omega)] at hok
  simp only [] at hok
  norm_num at hok
  split at hok
  · rcases hpb : parseDeliverSmBody ⟨p, 16⟩ with e | b <;> rw [hpb] at hok
    · cases hok
    · cases hok
      rfl
  · split at hok
    · rw [readBytes_eval (by
        simp only [BufferReader.bytesRemaining]
        omega)] at hok
      cases hok
      rfl
    · cases hok
      rfl

/-! ## Helper lemmas: the record loops -/

lemma extractLoopF_stop_end (f : Nat) {buf : List Nat} {le : Bool} {o idx : Nat}
    {acc : List PacketSummary} (h : buf.length ≤ o) :
    extractLoopF f buf le o idx acc = .ok acc := by
  cases f with
  | zero => rfl
  | succ f => simp only [extractLoopF, if_neg (show ¬ o < buf.length by omega)]

lemma extractLoopF_skip_short (f : Nat) {buf : List Nat} {le : Bool} {o idx : Nat}
    {acc : List PacketSummary} (h1 : o < buf.length) (h2 : o + 16 ≤ buf.length)
    (h3 : o + 16 + getU32 buf (o + 8) le ≤ buf.length)
    (h4 : getU32 buf (o + 8) le ≤ 14) :
    extractLoopF (f + 1) buf le o idx acc =
      extractLoopF f buf le (o + 16 + getU32 buf (o + 8) le) idx acc := by
  have c2 : ¬ buf.length < o + 16 := by omega
  have c3 : ¬ buf.length < o + 16 + getU32 buf (o + 8) le := by omega
  have c4 : o + 16 + getU32 buf (o + 8) le ≤ o + 16 + 14 := by omega
  simp only [extractLoopF, h1, c2, c3, c4, if_true, if_false, ite_true, ite_false,
    if_pos, if_neg]

lemma captureLoopF_bounds : ∀ (f : Nat) (buf : List Nat) (le : Bool) (o : Nat)
    (acc : List (Nat × Nat)),
    (∀ r ∈ acc, 16 ≤ r.1 ∧ r.1 + r.2 ≤ buf.length) →
    ∀ r ∈ captureLoopF f buf le o acc, 16 ≤ r.1 ∧ r.1 + r.2 ≤ buf.length
  | 0, _, _, _, _, hacc => hacc
  | f + 1, buf, le, o, acc, hacc => by
    by_cases h1 : o < buf.length
    · by_cases h2 : buf.length < o + 16
      · simpa only [captureLoopF, if_pos h1, if_pos h2] using hacc
      · by_cases h3 : buf.length < o + 16 + getU32 buf (o + 8) le
        · simp only [captureLoopF, h1, h2, h3, if_true, if_false, ite_true, ite_false]
          exact hacc
        · simp only [captureLoopF, h1, h2, h3, if_true, if_false, ite_true, ite_false]
          refine captureLoopF_bounds f buf le _ _ ?_
          intro r hr
          rcases List.mem_append.mp hr with hr | hr
          · exact hacc r hr
          · rcases List.mem_singleton.mp hr with rfl
            exact ⟨by omega, by omega⟩
    · simpa only [captureLoopF, if_neg h1] using hacc

/-! ## Helper lemmas: lengths of the constructed bodies -/

lemma c6body_length (sm pv : List Nat) (dc : Nat) :
    (c6body sm pv dc).length = 18 + sm.length + pv.length := by
  simp [c6body]
  omega

lemma c7body_length (t1 t2 : Nat) (v extra : List Nat) (dc : Nat) :
    (c7body t1 t2 v extra dc).length = 22 + v.length + extra.length := by
  simp [c7body]
  omega


/-! ## Claim theorems -/

/-- Claim C1, counterexample: the exact capture of the claim — one
Ethernet/IPv4/TCP frame from 10.0.0.1:2775 to 10.0.0.2:9999 whose TCP
payload is exactly the 16-byte `enquire_link` PDU — produces NO packet
summary at all (the frame stripper forwards a payload only when its
length is strictly greater than 16), so the pipeline yields zero
`ParsedPdu` values, not one. -/
theorem claim_C1_counterexample :
    extractAllTcpPayloads c1cap = .ok [] ∧
    (extractAllTcpPayloads c1cap).map (List.map fun p => parseMultipleSmppPdus p.payload) =
      .ok [] := by
  constructor <;> decide

/-- Claim C1, amended: for the same frame whose TCP payload is the 16-byte
`enquire_link` PDU followed by one extra byte (payload length 17, which
passes the strict `> 16` filter), the pipeline yields exactly one packet
summary with the claimed endpoints and exactly one `ParsedPdu` whose
header name is "enquire_link" and whose body is the unsupported-command
fallback with no body bytes (rendered as the "No body" marker). -/
theorem claim_C1_theorem :
    extractAllTcpPayloads c1cap17 = .ok [c1summary] ∧
    parseMultipleSmppPdus c1summary.payload = [c1pdu] ∧
    c1summary.sourceIp = "10.0.0.1" ∧ c1summary.sourcePort = 2775 ∧
    c1summary.destIp = "10.0.0.2" ∧ c1summary.destPort = 9999 ∧
    c1pdu.header.command_name = "enquire_link" ∧
    c1pdu.body = .unsupported "Parser for enquire_link (0x4) is not implemented." "No body" := by
  refine ⟨by decide, by decide, rfl, rfl, rfl, rfl, rfl, rfl⟩

/-- Claim C2: the boundary scanner yields exactly the valid PDUs in order.
First conjunct: a payload that is the exact concatenation of two valid
PDUs (recognized command id at offset +4, commandLength equal to the own
size and at least 16, decodable) yields exactly the two individual parses,
whose headers are the four big-endian words of each PDU. Second conjunct:
garbage bytes at whose offsets the command-id/length heuristics do not
match, prepended to one valid PDU, yield exactly the one valid parse. -/
theorem claim_C2_theorem :
    (∀ (p1 p2 : List Nat) (r1 r2 : ParsedSmppData),
      16 ≤ p1.length → 16 ≤ p2.length →
      getU32BE p1 0 = p1.length → getU32BE p2 0 = p2.length →
      (COMMAND_ID_MAP (getU32BE p1 4)).isSome →
      (COMMAND_ID_MAP (getU32BE p2 4)).isSome →
      parseSmppPdu p1 = .ok r1 → parseSmppPdu p2 = .ok r2 →
      parseMultipleSmppPdus (p1 ++ p2) = [r1, r2] ∧
        r1.header = ⟨getU32BE p1 0, getU32BE p1 4, getU32BE p1 8, getU32BE p1 12,
          (COMMAND_ID_MAP (getU32BE p1 4)).getD "Unknown Command"⟩ ∧
        r2.header = ⟨getU32BE p2 0, getU32BE p2 4, getU32BE p2 8, getU32BE p2 12,
          (COMMAND_ID_MAP (getU32BE p2 4)).getD "Unknown Command"⟩)
    ∧ (∀ (g p1 : List Nat) (r1 : ParsedSmppData),
      16 ≤ p1.length →
      getU32BE p1 0 = p1.length →
      (COMMAND_ID_MAP (getU32BE p1 4)).isSome →
      parseSmppPdu p1 = .ok r1 →
      (∀ j, j < g.length → ¬ heurAccept (g ++ p1) j) →
      parseMultipleSmppPdus (g ++ p1) = [r1]) := by
  constructor
  · intro p1 p2 r1 r2 h1 h2 hl1 hl2 hid1 hid2 hok1 hok2
    refine ⟨?_, parseSmppPdu_header h1 hok1, parseSmppPdu_header h2 hok2⟩
    have hLen : (p1 ++ p2).length = p1.length + p2.length := List.length_append ..
    have ha0 : getU32BE (p1 ++ p2) 0 = p1.length := by
      rw [getU32BE_append_left (by omega), hl1]
    have hacc0 : heurAccept (p1 ++ p2) 0 := by
      refine ⟨?_, ?_, ?_⟩
      · rw [show (0 : Nat) + 4 = 4 by omega, getU32BE_append_left (by omega)]
        exact hid1
      · rw [ha0]
        omega
      · rw [ha0]
        omega
    have hs0 : parseSmppPdu (((p1 ++ p2).drop 0).take (getU32BE (p1 ++ p2) 0)) = .ok r1 := by
      rw [ha0, List.drop_zero, List.take_left]
      exact hok1
    have ha1 : getU32BE (p1 ++ p2) p1.length = p2.length := by
      rw [getU32BE_append_at, hl2]
    have hacc1 : heurAccept (p1 ++ p2) p1.length := by
      refine ⟨?_, ?_, ?_⟩
      · rw [getU32BE_append_right]
        exact hid2
      · rw [ha1]
        omega
      · rw [ha1]
        omega
    have hs1 : parseSmppPdu (((p1 ++ p2).drop p1.length).take (getU32BE (p1 ++ p2) p1.length)) =
        .ok r2 := by
      rw [ha1, List.drop_left, List.take_length]
      exact hok2
    show scanLoopF ((p1 ++ p2).length + 1) (p1 ++ p2) 0 [] = [r1, r2]
    rw [scanLoopF_accept _ _ (by omega) hacc0 hs0]
    rw [show (0 : Nat) + getU32BE (p1 ++ p2) 0 = p1.length by rw [ha0]; omega]
    rw [show (p1 ++ p2).length = ((p1 ++ p2).length - 1) + 1 by omega]
    rw [scanLoopF_accept _ _ (by omega) hacc1 hs1]
    rw [show p1.length + getU32BE (p1 ++ p2) p1.length = p1.length + p2.length by
      rw [ha1]]
    rw [scanLoopF_stop _ _ (by omega)]
    simp
  · intro g p1 r1 h1 hl1 hid1 hok1 hmiss
    have hLen : (g ++ p1).length = g.length + p1.length := List.length_append ..
    show scanLoopF ((g ++ p1).length + 1) (g ++ p1) 0 [] = [r1]
    rw [show (g ++ p1).length + 1 = g.length + (p1.length + 1) by omega]
    rw [scanLoopF_walk g.length (p1.length + 1) (g ++ p1) 0 []
      (fun j hj0 hjk => ⟨by omega, hmiss j (by omega)⟩)]
    rw [Nat.zero_add]
    have hag : getU32BE (g ++ p1) g.length = p1.length := by
      rw [getU32BE_append_at, hl1]
    have haccg : heurAccept (g ++ p1) g.length := by
      refine ⟨?_, ?_, ?_⟩
      · rw [getU32BE_append_right]
        exact hid1
      · rw [hag]
        omega
      · rw [hag]
        omega
    have hsg : parseSmppPdu (((g ++ p1).drop g.length).take (getU32BE (g ++ p1) g.length)) =
        .ok r1 := by
      rw [hag, List.drop_left, List.take_length]
      exact hok1
    rw [scanLoopF_accept _ _ (by omega) haccg hsg]
    rw [show g.length + getU32BE (g ++ p1) g.length = g.length + p1.length by rw [hag]]
    rw [scanLoopF_stop _ _ (by omega)]
    simp

/-- Claim C2, witness: two back-to-back `enquire_link` / `enquire_link_resp`
PDUs yield exactly their two parses, and three garbage bytes prepended to
the `enquire_link` PDU yield exactly its one parse. -/
theorem claim_C2_witness :
    parseMultipleSmppPdus (enquirePdu ++ enquireRespPdu) = [c2r1, c2r2] ∧
    parseMultipleSmppPdus ([0, 0, 0] ++ enquirePdu) = [c2r1] := by
  refine ⟨(claim_C2_theorem.1 enquirePdu enquireRespPdu c2r1 c2r2 (by decide) (by decide)
    (by decide) (by decide) (by decide) (by decide) (by decide) (by decide)).1,
    claim_C2_theorem.2 [0, 0, 0] enquirePdu c2r1 (by decide) (by decide) (by decide)
      (by decide) (by decide)⟩

/-- Claim C3, counterexample: a capture record of 15 bytes that passes the
EtherType check but is too short for the IPv4 header makes the frame
stripper read past the end of the capture buffer and raise a range error
aborting the whole parse, instead of silently skipping the record. -/
theorem claim_C3_counterexample :
    extractAllTcpPayloads c3short =
      .error "RangeError: Offset is outside the bounds of the DataView" := by
  decide

/-- Claim C3, amended: a record whose captured bytes number at most 14 —
too short for the Ethernet payload to even begin — is silently skipped:
the parse succeeds with no packet and no error, for every content of the
record bytes; but records of 15 or more bytes that pass the EtherType and
IPv4 checks can be read past their end (see the counterexample). -/
theorem claim_C3_theorem : ∀ rb : List Nat, rb.length ≤ 14 →
    extractAllTcpPayloads (c3cap rb) = .ok [] := by
  intro rb hrb
  have hlen : (c3cap rb).length = 40 + rb.length := by
    simp [c3cap]
    omega
  have hmagic : getU32BE (c3cap rb) 0 = 2712847316 := by
    simp only [getU32BE, show getU8 (c3cap rb) 0 = 161 from rfl,
      show getU8 (c3cap rb) (0 + 1) = 178 from rfl,
      show getU8 (c3cap rb) (0 + 2) = 195 from rfl,
      show getU8 (c3cap rb) (0 + 3) = 212 from rfl]
  have hincl : getU32 (c3cap rb) (24 + 8) false = rb.length := by
    show getU32BE (c3cap rb) 32 = rb.length
    simp only [getU32BE, show getU8 (c3cap rb) 32 = 0 from rfl,
      show getU8 (c3cap rb) (32 + 1) = 0 from rfl,
      show getU8 (c3cap rb) (32 + 2) = 0 from rfl,
      show getU8 (c3cap rb) (32 + 3) = rb.length from rfl]
    omega
  simp only [extractAllTcpPayloads, hmagic, ite_true, if_true,
    if_neg (show ¬ (c3cap rb).length < 24 by omega)]
  rw [hlen]
  rw [extractLoopF_skip_short (40 + rb.length) (by omega) (by omega)
    (by rw [hincl, hlen]) (by rw [hincl]; omega)]
  rw [hincl]
  exact extractLoopF_stop_end _ (by omega)

/-- Claim C3, witness: a concrete 3-byte trailing record is skipped. -/
theorem claim_C3_witness :
    extractAllTcpPayloads (c3cap [1, 2, 3]) = .ok [] :=
  claim_C3_theorem [1, 2, 3] (by decide)

/-- Claim C4: for every buffer with a valid global header — whatever the
record length fields hold — the record iteration succeeds with no error,
and every record it yields lies entirely within the buffer
(`packetStart + capturedLength ≤ buffer length`, with the 16-byte record
header before it); iteration stops silently at a truncated trailing
record, by the in-loop checks of `captureLoopF`. -/
theorem claim_C4_theorem : ∀ buf : List Nat, 24 ≤ buf.length →
    (getU32BE buf 0 = 2712847316 ∨ getU32BE buf 0 = 3569595041) →
    ∃ rs, captureRecords buf = .ok rs ∧
      ∀ r ∈ rs, 16 ≤ r.1 ∧ r.1 + r.2 ≤ buf.length := by
  intro buf h24 hm
  rcases hm with hm | hm
  · have hrec : captureRecords buf = .ok (captureLoopF (buf.length + 1) buf false 24 []) := by
      simp only [captureRecords, if_neg (show ¬ buf.length < 24 by omega), hm,
        ite_true, if_pos]
    exact ⟨_, hrec, captureLoopF_bounds (buf.length + 1) buf false 24 [] (by simp)⟩
  · have hrec : captureRecords buf = .ok (captureLoopF (buf.length + 1) buf true 24 []) := by
      simp only [captureRecords, if_neg (show ¬ buf.length < 24 by omega), hm]
      norm_num
    exact ⟨_, hrec, captureLoopF_bounds (buf.length + 1) buf true 24 [] (by simp)⟩

/-- Claim C4, witness: the spec test input — a record header declaring
capturedLength 0xFFFFFFFF — is iterated without error and within bounds. -/
theorem claim_C4_witness :
    ∃ rs, captureRecords c4corrupt = .ok rs ∧
      ∀ r ∈ rs, 16 ≤ r.1 ∧ r.1 + r.2 ≤ c4corrupt.length :=
  claim_C4_theorem c4corrupt (by decide) (Or.inl (by decide))

/-- Claim C5: message rendering is total and labeled. Every rendering is
prefixed with the human-readable scheme name; data coding 0x04 on the
UTF-8 bytes of "Hello" decodes to exactly "Hello"; the unknown coding 0xFF
and the GSM 7-bit coding 0x00 each render a labeled hexadecimal dump of
the bytes for every message byte list, and `decodeMessage` never fails
(it is a total function into `String`). -/
theorem claim_C5_theorem :
    (∀ (bs : List Nat) (dc : Nat), ∃ content,
        decodeMessage bs dc = "(" ++ dataCodingScheme dc ++ ") " ++ content)
    ∧ decodeMessage [72, 101, 108, 108, 111] 4 = "(UTF-8) Hello"
    ∧ (∀ bs : List Nat, decodeMessage bs 255 =
        "(Unknown (0xff)) [Binary Data: " ++ bufferToHex bs ++ "]")
    ∧ (∀ bs : List Nat, decodeMessage bs 0 =
        "(Default (GSM 7-bit)) [GSM 7-bit encoded data: " ++ bufferToHex bs ++ "]") := by
  refine ⟨fun bs dc => ⟨_, rfl⟩, by decide, fun bs => rfl, fun bs => rfl⟩

/-- Claim C6: TLV precedence. For every nonempty short message `sm`, every
nonempty byte-valued `message_payload` value `pv` (16-bit length) and
every data coding, decoding the constructed `deliver_sm` body succeeds,
retains the short-message field, and renders `decoded_message` from the
TLV value bytes `pv` — not from `sm`. -/
theorem claim_C6_theorem (sm pv : List Nat) (dc : Nat) (hsm : sm ≠ [])
    (hsmlen : sm.length < 256) (hpv : pv ≠ []) (hpvb : ∀ b ∈ pv, b < 256)
    (hpvlen : pv.length < 65536) :
    ∃ b, parseDeliverSmBody ⟨c6body sm pv dc, 0⟩ = .ok b ∧
      b.decoded_message = decodeMessage pv dc ∧
      b.short_message = some (bufferToHex sm) := by
  have hlen := c6body_length sm pv dc
  have e0 : BufferReader.readCString ⟨c6body sm pv dc, 0⟩ = ("", ⟨c6body sm pv dc, 1⟩) :=
    readCString_eval0 rfl (by omega)
  have e1 : BufferReader.readUint8 ⟨c6body sm pv dc, 1⟩ = .ok (1, ⟨c6body sm pv dc, 2⟩) :=
    readUint8_eval rfl (by omega)
  have e2 : BufferReader.readUint8 ⟨c6body sm pv dc, 2⟩ = .ok (1, ⟨c6body sm pv dc, 3⟩) :=
    readUint8_eval rfl (by omega)
  have e3 : BufferReader.readCString ⟨c6body sm pv dc, 3⟩ = ("", ⟨c6body sm pv dc, 4⟩) :=
    readCString_eval0 rfl (by omega)
  have e4 : BufferReader.readUint8 ⟨c6body sm pv dc, 4⟩ = .ok (1, ⟨c6body sm pv dc, 5⟩) :=
    readUint8_eval rfl (by omega)
  have e5 : BufferReader.readUint8 ⟨c6body sm pv dc, 5⟩ = .ok (1, ⟨c6body sm pv dc, 6⟩) :=
    readUint8_eval rfl (by omega)
  have e6 : BufferReader.readCString ⟨c6body sm pv dc, 6⟩ = ("", ⟨c6body sm pv dc, 7⟩) :=
    readCString_eval0 rfl (by omega)
  have e7 : BufferReader.readUint8 ⟨c6body sm pv dc, 7⟩ = .ok (0, ⟨c6body sm pv dc, 8⟩) :=
    readUint8_eval rfl (by omega)
  have e8 : BufferReader.readUint8 ⟨c6body sm pv dc, 8⟩ = .ok (0, ⟨c6body sm pv dc, 9⟩) :=
    readUint8_eval rfl (by omega)
  have e9 : BufferReader.readUint8 ⟨c6body sm pv dc, 9⟩ = .ok (0, ⟨c6body sm pv dc, 10⟩) :=
    readUint8_eval rfl (by omega)
  have e10 : BufferReader.readUint8 ⟨c6body sm pv dc, 10⟩ = .ok (0, ⟨c6body sm pv dc, 11⟩) :=
    readUint8_eval rfl (by omega)
  have e11 : BufferReader.readUint8 ⟨c6body sm pv dc, 11⟩ = .ok (dc, ⟨c6body sm pv dc, 12⟩) :=
    readUint8_eval rfl (by omega)
  have e12 : BufferReader.readUint8 ⟨c6body sm pv dc, 12⟩ = .ok (0, ⟨c6body sm pv dc, 13⟩) :=
    readUint8_eval rfl (by omega)
  have e13 : BufferReader.readUint8 ⟨c6body sm pv dc, 13⟩ =
      .ok (sm.length, ⟨c6body sm pv dc, 14⟩) :=
    readUint8_eval rfl (by omega)
  have hrem14 : BufferReader.bytesRemaining ⟨c6body sm pv dc, 14⟩ =
      4 + sm.length + pv.length := by
    simp [BufferReader.bytesRemaining, hlen]
    omega
  have hguard : 0 < sm.length ∧
      sm.length ≤ BufferReader.bytesRemaining ⟨c6body sm pv dc, 14⟩ := by
    rw [hrem14]
    exact ⟨List.length_pos.mpr hsm, by omega⟩
  have e14 : BufferReader.readBytes ⟨c6body sm pv dc, 14⟩ sm.length =
      .ok (sm, ⟨c6body sm pv dc, 14 + sm.length⟩) := by
    rw [readBytes_eval (by omega)]
    have hd14 : (c6body sm pv dc).drop 14 =
        sm ++ (4 :: 36 :: (pv.length / 256) :: (pv.length % 256) :: pv) := rfl
    rw [hd14, List.take_left]
  have hd2 : (c6body sm pv dc).drop (14 + sm.length) =
      4 :: 36 :: (pv.length / 256) :: (pv.length % 256) :: (pv ++ []) := by
    have h14 : (c6body sm pv dc).drop 14 =
        sm ++ (4 :: 36 :: (pv.length / 256) :: (pv.length % 256) :: pv) := rfl
    rw [List.append_nil, ← List.drop_drop, h14, List.drop_left]
  have hrem15 : BufferReader.bytesRemaining ⟨c6body sm pv dc, 14 + sm.length⟩ =
      4 + pv.length := by
    rw [bytesRemaining_of_drop hd2]
    simp only [List.length_cons, List.length_append, List.length_nil]
    omega
  have htlv := readTlv_eval_ok hd2 (by omega)
  have hrem16 : BufferReader.bytesRemaining
      ⟨c6body sm pv dc, 14 + sm.length + 4 + pv.length⟩ = 0 := by
    simp [BufferReader.bytesRemaining, hlen]
    omega
  simp only [parseDeliverSmBody, e0, e1, e2, e3, e4, e5, e6, e7, e8, e9, e10, e11, e12, e13,
    bind, Except.bind, pure, Except.pure, hguard, if_pos, and_self, e14, hrem15]
  rw [tlvLoopF_step _ _ _ (by rw [hrem15]; omega) htlv]
  rw [tlvLoopF_end _ _ _ hrem16]
  simp only [show (4 * 256 + 36 : Nat) = 1060 from rfl, if_pos rfl,
    hexStringToBytes_bufferToHex pv hpv hpvb]
  exact ⟨_, rfl, rfl, rfl⟩

/-- Claim C6, witness: short message "A", message_payload bytes "BC",
data coding UTF-8. -/
theorem claim_C6_witness :
    ∃ b, parseDeliverSmBody ⟨c6body [65] [66, 67] 4, 0⟩ = .ok b ∧
      b.decoded_message = decodeMessage [66, 67] 4 ∧
      b.short_message = some (bufferToHex [65]) :=
  claim_C6_theorem [65] [66, 67] 4 (by decide) (by decide) (by decide) (by decide)
    (by decide)

/-- Claim C7: malformed-TLV containment. First conjunct: `readTlv` returns
`none` — stopping the TLV scan without an error — whenever the declared
length exceeds the remaining bytes minus the 4 header bytes. Second
conjunct: decoding a `deliver_sm` body holding one well-formed TLV
followed by a TLV declaring length 9999 over fewer remaining bytes
succeeds, and the body retains exactly the previously parsed TLV. -/
theorem claim_C7_theorem :
    (∀ r : BufferReader, 4 ≤ r.bytesRemaining →
      r.bytesRemaining - 4 < getU16 r.buf (r.offset + 2) → r.readTlv = none)
    ∧ (∀ (t1 t2 : Nat) (v extra : List Nat) (dc : Nat),
        v.length < 65536 → extra.length < 9999 →
        ∃ b, parseDeliverSmBody ⟨c7body t1 t2 v extra dc, 0⟩ = .ok b ∧
          b.tlvs = [⟨"0x" ++ padStartZero 4 (jsHexString (t1 * 256 + t2)),
            v.length, bufferToHex v⟩]) := by
  constructor
  · intro r h4 hlen
    simp only [BufferReader.readTlv]
    rw [if_neg (by omega), if_pos hlen]
  · intro t1 t2 v extra dc hvlen hextra
    have hlen := c7body_length t1 t2 v extra dc
    have e0 : BufferReader.readCString ⟨c7body t1 t2 v extra dc, 0⟩ =
        ("", ⟨c7body t1 t2 v extra dc, 1⟩) := readCString_eval0 rfl (by omega)
    have e1 : BufferReader.readUint8 ⟨c7body t1 t2 v extra dc, 1⟩ =
        .ok (1, ⟨c7body t1 t2 v extra dc, 2⟩) := readUint8_eval rfl (by omega)
    have e2 : BufferReader.readUint8 ⟨c7body t1 t2 v extra dc, 2⟩ =
        .ok (1, ⟨c7body t1 t2 v extra dc, 3⟩) := readUint8_eval rfl (by omega)
    have e3 : BufferReader.readCString ⟨c7body t1 t2 v extra dc, 3⟩ =
        ("", ⟨c7body t1 t2 v extra dc, 4⟩) := readCString_eval0 rfl (by omega)
    have e4 : BufferReader.readUint8 ⟨c7body t1 t2 v extra dc, 4⟩ =
        .ok (1, ⟨c7body t1 t2 v extra dc, 5⟩) := readUint8_eval rfl (by omega)
    have e5 : BufferReader.readUint8 ⟨c7body t1 t2 v extra dc, 5⟩ =
        .ok (1, ⟨c7body t1 t2 v extra dc, 6⟩) := readUint8_eval rfl (by omega)
    have e6 : BufferReader.readCString ⟨c7body t1 t2 v extra dc, 6⟩ =
        ("", ⟨c7body t1 t2 v extra dc, 7⟩) := readCString_eval0 rfl (by omega)
    have e7 : BufferReader.readUint8 ⟨c7body t1 t2 v extra dc, 7⟩ =
        .ok (0, ⟨c7body t1 t2 v extra dc, 8⟩) := readUint8_eval rfl (by omega)
    have e8 : BufferReader.readUint8 ⟨c7body t1 t2 v extra dc, 8⟩ =
        .ok (0, ⟨c7body t1 t2 v extra dc, 9⟩) := readUint8_eval rfl (by omega)
    have e9 : BufferReader.readUint8 ⟨c7body t1 t2 v extra dc, 9⟩ =
        .ok (0, ⟨c7body t1 t2 v extra dc, 10⟩) := readUint8_eval rfl (by omega)
    have e10 : BufferReader.readUint8 ⟨c7body t1 t2 v extra dc, 10⟩ =
        .ok (0, ⟨c7body t1 t2 v extra dc, 11⟩) := readUint8_eval rfl (by omega)
    have e11 : BufferReader.readUint8 ⟨c7body t1 t2 v extra dc, 11⟩ =
        .ok (dc, ⟨c7body t1 t2 v extra dc, 12⟩) := readUint8_eval rfl (by omega)
    have e12 : BufferReader.readUint8 ⟨c7body t1 t2 v extra dc, 12⟩ =
        .ok (0, ⟨c7body t1 t2 v extra dc, 13⟩) := readUint8_eval rfl (by omega)
    have e13 : BufferReader.readUint8 ⟨c7body t1 t2 v extra dc, 13⟩ =
        .ok (0, ⟨c7body t1 t2 v extra dc, 14⟩) := readUint8_eval rfl (by omega)
    have hdA : (c7body t1 t2 v extra dc).drop 14 =
        t1 :: t2 :: (v.length / 256) :: (v.length % 256) ::
          (v ++ (80 :: 66 :: 39 :: 15 :: extra)) := rfl
    have hrem14 : BufferReader.bytesRemaining ⟨c7body t1 t2 v extra dc, 14⟩ =
        8 + v.length + extra.length := by
      rw [bytesRemaining_of_drop hdA]
      simp only [List.length_cons, List.length_append]
      omega
    have htlv1 := readTlv_eval_ok hdA (by omega)
    have h18 : (c7body t1 t2 v extra dc).drop 18 =
        v ++ (80 :: 66 :: 39 :: 15 :: extra) := rfl
    have hdB : (c7body t1 t2 v extra dc).drop (14 + 4 + v.length) =
        80 :: 66 :: 39 :: 15 :: extra := by
      rw [show 14 + 4 + v.length = 18 + v.length by omega, ← List.drop_drop, h18,
        List.drop_left]
    have htlv2 := readTlv_eval_none hdB (by omega)
    simp only [parseDeliverSmBody, e0, e1, e2, e3, e4, e5, e6, e7, e8, e9, e10, e11, e12, e13,
      bind, Except.bind, pure, Except.pure, lt_self_iff_false, false_and, if_false, hrem14]
    rw [tlvLoopF_step _ _ _ (by rw [hrem14]; omega) htlv1]
    rw [tlvLoopF_none _ _ _ htlv2]
    exact ⟨_, rfl, rfl⟩

/-- Claim C7, witness: a TLV declaring length 9999 inside 5 remaining
bytes is rejected, and a body with one good TLV before such a declaration
keeps exactly the good TLV. -/
theorem claim_C7_witness :
    BufferReader.readTlv ⟨[0, 4, 39, 15, 9], 0⟩ = none ∧
    ∃ b, parseDeliverSmBody ⟨c7body 18 52 [9] [] 0, 0⟩ = .ok b ∧
      b.tlvs = [⟨"0x" ++ padStartZero 4 (jsHexString (18 * 256 + 52)),
        ([9] : List Nat).length, bufferToHex [9]⟩] :=
  ⟨claim_C7_theorem.1 ⟨[0, 4, 39, 15, 9], 0⟩ (by decide) (by decide),
    claim_C7_theorem.2 18 52 [9] [] 0 (by decide) (by decide)⟩

set_option maxRecDepth 4000 in
/-- Claim C8: for every ESM-class byte, the rendering decomposes it into
the 2-bit mode subfield (bits 0-1) and the 4-bit type subfield (bits 2-5),
looks each up in the fixed tables, and falls back to "Unknown Type" /
"Unknown Mode" for combinations absent from them. -/
theorem claim_C8_theorem : ∀ v : Nat, v < 256 →
    ESM_CLASS_MAP v = (esmTypeTable ((v >>> 2) % 16)).getD "Unknown Type" ++ ", " ++
      (esmModeTable (v % 4)).getD "Unknown Mode" := by
  decide

/-- Claim C8, witness: ESM class 0x04 renders as a delivery receipt in
default mode. -/
theorem claim_C8_witness :
    ESM_CLASS_MAP 4 = (esmTypeTable ((4 >>> 2) % 16)).getD "Unknown Type" ++ ", " ++
      (esmModeTable (4 % 4)).getD "Unknown Mode" :=
  claim_C8_theorem 4 (by decide)

/-- Claim C9: the boundary scan terminates and recovers. First conjunct:
whenever the loop continues, the cursor strictly advances, either by the
accepted command length (at least 16) or by exactly one byte. Second
conjunct: when the heuristics pass but decoding the slice raises an error,
the error is caught, the cursor advances one byte, and scanning resumes.
Third conjunct: once the fuel exceeds the bytes left of the cursor the
result no longer depends on it — the loop reaches its exit test on every
input (termination). -/
theorem claim_C9_theorem :
    (∀ (p : List Nat) (o : Nat), o + 16 ≤ p.length →
      ∃ (o2 : Nat) (em : List ParsedSmppData),
        (o2 = o + getU32BE p o ∧ 16 ≤ getU32BE p o ∨ o2 = o + 1) ∧ o < o2 ∧
        ∀ (f : Nat) (acc : List ParsedSmppData),
          scanLoopF (f + 1) p o acc = scanLoopF f p o2 (acc ++ em))
    ∧ (∀ (p : List Nat) (o f : Nat) (acc : List ParsedSmppData) (e : String),
        o + 16 ≤ p.length → heurAccept p o →
        parseSmppPdu ((p.drop o).take (getU32BE p o)) = .error e →
        scanLoopF (f + 1) p o acc = scanLoopF f p (o + 1) acc)
    ∧ (∀ (p : List Nat) (f g o : Nat) (acc : List ParsedSmppData),
        p.length - o < f → p.length - o < g →
        scanLoopF f p o acc = scanLoopF g p o acc) := by
  refine ⟨?_, ?_, ?_⟩
  · intro p o h16
    by_cases hacc : heurAccept p o
    · rcases hps : parseSmppPdu ((p.drop o).take (getU32BE p o)) with e | r
      · exact ⟨o + 1, [], Or.inr rfl, by omega, fun f acc => by
          rw [List.append_nil]
          exact scanLoopF_err f acc h16 hacc hps⟩
      · obtain ⟨hid, hcl, hfit⟩ := hacc
        exact ⟨o + getU32BE p o, [r], Or.inl ⟨rfl, hcl⟩, by omega, fun f acc =>
          scanLoopF_accept f acc h16 ⟨hid, hcl, hfit⟩ hps⟩
    · exact ⟨o + 1, [], Or.inr rfl, by omega, fun f acc => by
        rw [List.append_nil]
        exact scanLoopF_skip f acc h16 hacc⟩
  · intro p o f acc e h16 hacc herr
    exact scanLoopF_err f acc h16 hacc herr
  · intro p f g o acc hf hg
    exact scanLoopF_fuel f g p o acc hf hg

/-- Claim C9, witness: the step characterization at a 16-byte payload, the
catch-and-advance behavior on the truncated `deliver_sm` slice, and fuel
independence on the empty payload. -/
theorem claim_C9_witness :
    (∃ (o2 : Nat) (em : List ParsedSmppData),
      (o2 = 0 + getU32BE enquirePdu 0 ∧ 16 ≤ getU32BE enquirePdu 0 ∨ o2 = 0 + 1) ∧
      0 < o2 ∧
      ∀ (f : Nat) (acc : List ParsedSmppData),
        scanLoopF (f + 1) enquirePdu 0 acc = scanLoopF f enquirePdu o2 (acc ++ em))
    ∧ scanLoopF (5 + 1) deliverSmHeaderOnly 0 [] =
        scanLoopF 5 deliverSmHeaderOnly (0 + 1) []
    ∧ scanLoopF 1 ([] : List Nat) 0 [] = scanLoopF 2 ([] : List Nat) 0 [] :=
  ⟨claim_C9_theorem.1 enquirePdu 0 (by decide),
    claim_C9_theorem.2.1 deliverSmHeaderOnly 0 5 []
      "RangeError: Offset is outside the bounds of the DataView"
      (by decide) (by decide) (by decide),
    claim_C9_theorem.2.2 [] 1 2 0 [] (by decide) (by decide)⟩

/-- Claim C10: the single-PDU decoder is not total on well-bounded
buffers: on the 16-byte buffer whose commandId 2 selects the `deliver_sm`
body decoder, body parsing reads past the end of the buffer and fails
with a range error instead of returning a `ParsedPdu`; the boundary
scanner, which catches the error, returns no PDU for the same buffer
instead of propagating it. -/
theorem claim_C10_theorem :
    parseSmppPdu deliverSmHeaderOnly =
      .error "RangeError: Offset is outside the bounds of the DataView" ∧
    parseMultipleSmppPdus deliverSmHeaderOnly = [] := by
  constructor <;> decide

end SmppM
